import Mathlib

/-!
Shallow embedding of the taskmanager shortcut-dispatch engine and view models
(Go sources under internal/ui/shortcuts and internal/ui/models), together with
theorems settling the specification claims about them.

Modelling conventions:
- Go slices become Lean lists; Go maps with zero-value defaults become total
  functions into lists (absent key = empty list).
- A handler closure `func() tea.Cmd` is modelled by the command value it
  produces (`Cmd := String`); invoking the handler returns that value.
- A `tea.KeyMsg` is modelled per the keyboard-input boundary contract: a textual
  key identifier plus boolean ctrl/alt/shift flags; `KeyMsg.String` returns
  the identifier.
- `strings.Split(s, "+")` is modelled by `splitOnChar` over the character
  list of the string (the separator is ASCII, so byte and codepoint
  boundaries agree).
-/

/-- Model of the command value produced by a shortcut handler (tea.Cmd). -/
abbrev Cmd := String

/-- Model of tea.KeyMsg as delivered by the terminal: a textual key
identifier plus boolean ctrl/alt/shift modifier flags. -/
structure KeyMsg where
  str : String
  ctrl : Bool
  alt : Bool
  shift : Bool
deriving DecidableEq, Repr

/-- Model of msg.String(): the textual key identifier of the event. -/
def KeyMsg.String (msg : KeyMsg) : String := msg.str

/-- Modifier enum from types.go. -/
inductive Modifier where
  | ModNone
  | ModCtrl
  | ModAlt
  | ModShift
  | ModCtrlShift
  | ModCtrlAlt
  | ModAltShift
  | ModCtrlAltShift
deriving DecidableEq, Repr, Fintype

open Modifier

/-- Modifier.String() from types.go. -/
def Modifier.String : Modifier → String
  | ModNone => ""
  | ModCtrl => "Ctrl"
  | ModAlt => "Alt"
  | ModShift => "Shift"
  | ModCtrlShift => "Ctrl+Shift"
  | ModCtrlAlt => "Ctrl+Alt"
  | ModAltShift => "Alt+Shift"
  | ModCtrlAltShift => "Ctrl+Alt+Shift"

/-- ShortcutKey from types.go: a base key string plus a modifier. -/
structure ShortcutKey where
  Key : String
  Modifier : Modifier
deriving DecidableEq, Repr

/-- Context enum from types.go. -/
inductive Context where
  | ContextGlobal
  | ContextProcesses
  | ContextDetails
  | ContextStats
  | ContextSettings
  | ContextHelp
  | ContextFilter
  | ContextSearch
deriving DecidableEq, Repr

open Context

/-- Shortcut from types.go. The Handler closure is modelled by the command
it produces. -/
structure Shortcut where
  Key : ShortcutKey
  Action : String
  Description : String
  Context : Context
  Handler : Cmd
  Enabled : Bool
deriving DecidableEq, Repr

/-- Splitting a character list on a separator character, modelling Go
strings.Split (which never returns an empty list). -/
def splitOnChar (sep : Char) : List Char → List (List Char)
  | [] => [[]]
  | c :: cs =>
    match splitOnChar sep cs with
    | [] => [[]]
    | r :: rs => if c = sep then [] :: r :: rs else (c :: r) :: rs

/-- Token list of a key spec string: strings.Split(keyStr, "+"). -/
def splitPlus (keyStr : String) : List String :=
  (splitOnChar '+' keyStr.data).map fun l => String.mk l

/-- Lowercasing from strings.ToLower (ASCII-relevant part). -/
def goToLower (s : String) : String := String.mk (s.data.map Char.toLower)

/-- One iteration of the modifier loop inside ParseKey: set the flag of a
recognized modifier token, ignore unrecognized tokens. -/
def parseFlagsStep (acc : Bool × Bool × Bool) (mod : String) : Bool × Bool × Bool :=
  if goToLower mod = "ctrl" then (true, acc.2.1, acc.2.2)
  else if goToLower mod = "alt" then (acc.1, true, acc.2.2)
  else if goToLower mod = "shift" then (acc.1, acc.2.1, true)
  else acc

/-- The ctrl/alt/shift flag accumulation loop inside ParseKey. -/
def parseFlags (modifiers : List String) : Bool × Bool × Bool :=
  modifiers.foldl parseFlagsStep (false, false, false)

/-- The if-chain mapping the three boolean flags to the modifier enum,
shared verbatim by ParseKey and getModifierFromMsg. -/
def modifierOfFlags (hasCtrl hasAlt hasShift : Bool) : Modifier :=
  if hasCtrl && hasAlt && hasShift then ModCtrlAltShift
  else if hasCtrl && hasAlt then ModCtrlAlt
  else if hasCtrl && hasShift then ModCtrlShift
  else if hasAlt && hasShift then ModAltShift
  else if hasCtrl then ModCtrl
  else if hasAlt then ModAlt
  else if hasShift then ModShift
  else ModNone

/-- ParseKey from types.go: split on +, last token is the base key, the
preceding tokens set the case-insensitive ctrl/alt/shift flags. -/
def ParseKey (keyStr : String) : ShortcutKey :=
  let parts := splitPlus keyStr
  if parts.length = 1 then
    { Key := parts.headI, Modifier := ModNone }
  else
    let key := parts.getLastI
    let modifiers := parts.dropLast
    let flags := parseFlags modifiers
    { Key := key, Modifier := modifierOfFlags flags.1 flags.2.1 flags.2.2 }

/-- ShortcutKey.String() from types.go: the canonical display form. -/
def ShortcutKey.String (k : ShortcutKey) : String :=
  if k.Modifier = ModNone then k.Key else k.Modifier.String ++ "+" ++ k.Key

/-- ShortcutRegistry from types.go. The two Go maps (per-context shortcut
lists and per-key conflict buckets) are total functions defaulting to []. -/
structure ShortcutRegistry where
  shortcuts : Context → List Shortcut
  conflicts : ShortcutKey → List Shortcut

/-- NewShortcutRegistry: both maps empty. -/
def NewShortcutRegistry : ShortcutRegistry :=
  { shortcuts := fun _ => [], conflicts := fun _ => [] }

/-- RegisterShortcut from types.go: append to the shortcut list of the
context of the shortcut and to the conflict bucket of its key (the Go
exists-check collapses to an append on the [] default). -/
def ShortcutRegistry.RegisterShortcut (r : ShortcutRegistry) (shortcut : Shortcut) :
    ShortcutRegistry :=
  { shortcuts := fun c =>
      if c = shortcut.Context then r.shortcuts c ++ [shortcut] else r.shortcuts c,
    conflicts := fun k =>
      if k = shortcut.Key then r.conflicts k ++ [shortcut] else r.conflicts k }

/-- GetShortcuts from types.go: the stored list of the context (the internal slice). -/
def ShortcutRegistry.GetShortcuts (r : ShortcutRegistry) (context : Context) :
    List Shortcut :=
  r.shortcuts context

/-- The linear scan inside ShortcutRegistry.GetShortcut. -/
def findShortcut (key : ShortcutKey) : List Shortcut → Option Shortcut
  | [] => none
  | s :: rest => if s.Key = key ∧ s.Enabled = true then some s else findShortcut key rest

/-- GetShortcut from types.go: first enabled shortcut with the given key in
the stored list of the context, or none. -/
def ShortcutRegistry.GetShortcut (r : ShortcutRegistry) (key : ShortcutKey)
    (context : Context) : Option Shortcut :=
  findShortcut key (r.shortcuts context)

/-- GetConflicts from types.go: the conflict bucket of a key. -/
def ShortcutRegistry.GetConflicts (r : ShortcutRegistry) (key : ShortcutKey) :
    List Shortcut :=
  r.conflicts key

/-- ShortcutManager from registry.go. -/
structure ShortcutManager where
  registry : ShortcutRegistry
  context : Context

/-- SetContext from registry.go. -/
def ShortcutManager.SetContext (m : ShortcutManager) (context : Context) :
    ShortcutManager :=
  { m with context := context }

/-- getModifierFromMsg from registry.go. -/
def getModifierFromMsg (msg : KeyMsg) : Modifier :=
  if msg.ctrl && msg.alt && msg.shift then ModCtrlAltShift
  else if msg.ctrl && msg.alt then ModCtrlAlt
  else if msg.ctrl && msg.shift then ModCtrlShift
  else if msg.alt && msg.shift then ModAltShift
  else if msg.ctrl then ModCtrl
  else if msg.alt then ModAlt
  else if msg.shift then ModShift
  else ModNone

/-- The ShortcutKey that HandleKey constructs from an incoming key event. -/
def derivedKey (msg : KeyMsg) : ShortcutKey :=
  { Key := msg.String, Modifier := getModifierFromMsg msg }

/-- The global-fallback tail of HandleKey (lines 51-61 of registry.go). -/
def handleKeyGlobalFallback (m : ShortcutManager) (key : ShortcutKey) : Option Cmd :=
  if m.context ≠ ContextGlobal then
    match m.registry.GetShortcut key ContextGlobal with
    | some s => if s.Enabled then some s.Handler else none
    | none => none
  else none

/-- HandleKey from registry.go: look the derived key up in the current
context, then (for non-global contexts) in the global context. -/
def ShortcutManager.HandleKey (m : ShortcutManager) (msg : KeyMsg) : Option Cmd :=
  match m.registry.GetShortcut (derivedKey msg) m.context with
  | some s => if s.Enabled then some s.Handler else handleKeyGlobalFallback m (derivedKey msg)
  | none => handleKeyGlobalFallback m (derivedKey msg)

/-- RegisterShortcut on the manager (registry.go). -/
def ShortcutManager.RegisterShortcut (m : ShortcutManager) (shortcut : Shortcut) :
    ShortcutManager :=
  { m with registry := m.registry.RegisterShortcut shortcut }

/-- RegisterShortcuts on the manager (registry.go): register in order. -/
def ShortcutManager.RegisterShortcuts (m : ShortcutManager) (shortcuts : List Shortcut) :
    ShortcutManager :=
  shortcuts.foldl ShortcutManager.RegisterShortcut m

/-- The in-place loop of EnableShortcut/DisableShortcut: set the Enabled
field of the first entry whose key matches, leave the rest unchanged. -/
def setEnabledFirst (key : ShortcutKey) (b : Bool) : List Shortcut → List Shortcut
  | [] => []
  | s :: rest =>
    if s.Key = key then { s with Enabled := b } :: rest
    else s :: setEnabledFirst key b rest

/-- EnableShortcut from registry.go: mutates the first matching entry of the
stored list of the context in place. -/
def ShortcutManager.EnableShortcut (m : ShortcutManager) (key : ShortcutKey)
    (context : Context) : ShortcutManager :=
  { m with registry := { m.registry with shortcuts := (fun c =>
      if c = context then setEnabledFirst key true (m.registry.shortcuts context)
      else m.registry.shortcuts c) } }

/-- DisableShortcut from registry.go: mutates the first matching entry of the
stored list of the context in place (conflict buckets hold copies and are not
touched). -/
def ShortcutManager.DisableShortcut (m : ShortcutManager) (key : ShortcutKey)
    (context : Context) : ShortcutManager :=
  { m with registry := { m.registry with shortcuts := (fun c =>
      if c = context then setEnabledFirst key false (m.registry.shortcuts context)
      else m.registry.shortcuts c) } }

/-- GetConflicts from registry.go: the sub-map of conflict buckets holding
more than one entry (an absent key reads as []). -/
def ShortcutManager.GetConflicts (m : ShortcutManager) : ShortcutKey → List Shortcut :=
  fun key =>
    if 1 < (m.registry.conflicts key).length then m.registry.conflicts key else []

/-- The comparison closure passed to sort.Slice in GetShortcutsForContext. -/
def keyStringLess (a b : Shortcut) : Prop :=
  a.Key.String < b.Key.String

instance : DecidableRel keyStringLess := fun a b =>
  inferInstanceAs (Decidable (a.Key.String < b.Key.String))

/-- Postcondition of Go sort.Slice with comparison less: the output is a
permutation of the input with no inversion under less. sort.Slice is not
guaranteed to be stable, so the output is specified relationally. -/
def sortSliceRel (input output : List Shortcut) : Prop :=
  input.Perm output ∧ output.Pairwise (fun a b => ¬ keyStringLess b a)

/-- GetShortcutsForContext from registry.go, relationally: it fetches the
internal registry slice for the context, sorts that very slice in place by
canonical key string, and returns it; the post-state registry therefore
stores the sorted list. -/
def GetShortcutsForContextRel (m : ShortcutManager) (context : Context)
    (result : List Shortcut) (mAfter : ShortcutManager) : Prop :=
  sortSliceRel (m.registry.GetShortcuts context) result ∧
  mAfter = { m with registry := { m.registry with shortcuts := (fun c =>
      if c = context then result else m.registry.shortcuts c) } }

/-- ProcessInfo from internal/models/common.go. The float-valued fields
(CPU, Memory) and CreateTime are not modelled: none of the embedded
operations below reads them. -/
structure ProcessInfo where
  PID : Int
  PPID : Int
  Name : String
  Status : String
  MemoryBytes : Nat
  Username : String
  Command : String
  WorkingDir : String
  NumThreads : Int
  Nice : Int
  IsRunning : Bool
deriving DecidableEq, Repr

/-- Zero value of ProcessInfo (Go composite-literal default). -/
def ProcessInfo.zero : ProcessInfo :=
  { PID := 0, PPID := 0, Name := "", Status := "", MemoryBytes := 0, Username := "",
    Command := "", WorkingDir := "", NumThreads := 0, Nice := 0, IsRunning := false }

instance : Inhabited ProcessInfo := ⟨ProcessInfo.zero⟩

/-- ProcessFilter from internal/models/common.go. The float bound fields
(MinCPU, MaxCPU, MinMemory, MaxMemory) are not modelled: the embedded
operations never read them. -/
structure ProcessFilter where
  SearchTerm : String
  Status : String
  Username : String
  ShowSystem : Bool
deriving DecidableEq, Repr

/-- Zero value of ProcessFilter (Go &models.ProcessFilter{}). -/
def ProcessFilter.zero : ProcessFilter :=
  { SearchTerm := "", Status := "", Username := "", ShowSystem := false }

/-- ProcessSort from internal/models/common.go. -/
structure ProcessSort where
  Field : String
  Order : String
deriving DecidableEq, Repr

/-- ViewType from the main model (part_004). -/
inductive ViewType where
  | ViewProcesses
  | ViewDetails
  | ViewStats
  | ViewSettings
  | ViewHelp
deriving DecidableEq, Repr

/-- The tea.Msg values routed to the processes/details Update functions:
key events, refreshProcessesMsg, refreshTimerMsg, killProcessMsg,
filterProcessesMsg, SwitchViewMsg (a Go error is an Option String). -/
inductive Msg where
  | key (msg : KeyMsg)
  | refreshProcesses (Processes : List ProcessInfo) (Error : Option String)
  | refreshTimer
  | killProcess (Success : Bool) (Error : Option String)
  | filterProcesses (ShowSystem : Bool) (SearchTerm : String)
  | switchView (View : ViewType)
deriving DecidableEq, Repr

/-- The commands a view model Update can issue (each Go tea.Cmd closure is
modelled by a tag carrying the data it captures). -/
inductive ModelCmd where
  | refreshProcesses
  | killProcess (pid : Int)
  | showFilterDialog
  | showSearchDialog
  | switchToDetails (pid : Int)
  | switchToProcesses
deriving DecidableEq, Repr

/-- ProcessesModel from processes_model.go (the processService handle is
I/O plumbing and carries no state read by Update). -/
structure ProcessesModel where
  processes : List ProcessInfo
  filter : ProcessFilter
  sort : ProcessSort
  selectedIndex : Int
  width : Int
  height : Int
  showSystem : Bool
  refreshing : Bool
deriving DecidableEq, Repr

/-- NewProcessesModel from processes_model.go. -/
def NewProcessesModel : ProcessesModel :=
  { processes := [], filter := ProcessFilter.zero,
    sort := { Field := "cpu", Order := "desc" }, selectedIndex := 0,
    width := 0, height := 0, showSystem := false, refreshing := false }

/-- sortByField from processes_model.go: toggle the order on the current
field, or switch to the new field with descending order. -/
def ProcessesModel.sortByField (m : ProcessesModel) (field : String) : ProcessesModel :=
  if m.sort.Field = field then
    if m.sort.Order = "asc" then { m with sort := { m.sort with Order := "desc" } }
    else { m with sort := { m.sort with Order := "asc" } }
  else
    { m with sort := { Field := field, Order := "desc" } }

/-- The refreshProcessesMsg case shared by the processes and details Update
functions: replace the snapshot, clear the refreshing flag, clamp the
selection index. -/
def applyRefresh (processes : List ProcessInfo) (selectedIndex : Int) : Int :=
  let clamped := if selectedIndex ≥ (processes.length : Int)
    then (processes.length : Int) - 1 else selectedIndex
  if clamped < 0 then 0 else clamped

/-- ProcessesModel.Update from processes_model.go. -/
def ProcessesModel.Update (m : ProcessesModel) (msg : Msg) :
    ProcessesModel × Option ModelCmd :=
  match msg with
  | Msg.key k =>
    let s := k.String
    if s = "up" ∨ s = "k" then
      (if m.selectedIndex > 0 then { m with selectedIndex := m.selectedIndex - 1 } else m,
       none)
    else if s = "down" ∨ s = "j" then
      (if m.selectedIndex < (m.processes.length : Int) - 1 then
        { m with selectedIndex := m.selectedIndex + 1 } else m, none)
    else if s = "r" then (m, some ModelCmd.refreshProcesses)
    else if s = "ctrl+k" then
      (m, if 0 < m.processes.length ∧ m.selectedIndex < (m.processes.length : Int) then
        some (ModelCmd.killProcess (m.processes.getD m.selectedIndex.toNat ProcessInfo.zero).PID)
      else none)
    else if s = "f" then (m, some ModelCmd.showFilterDialog)
    else if s = "ctrl+f" then (m, some ModelCmd.showSearchDialog)
    else if s = "s" then
      ({ m with showSystem := !m.showSystem,
                filter := { m.filter with ShowSystem := !m.showSystem } },
       some ModelCmd.refreshProcesses)
    else if s = "o" then (m.sortByField "cpu", some ModelCmd.refreshProcesses)
    else if s = "m" then (m.sortByField "memory", some ModelCmd.refreshProcesses)
    else if s = "ctrl+p" then (m.sortByField "pid", some ModelCmd.refreshProcesses)
    else if s = "n" then (m.sortByField "name", some ModelCmd.refreshProcesses)
    else if s = "t" then (m.sortByField "status", some ModelCmd.refreshProcesses)
    else if s = "u" then (m.sortByField "user", some ModelCmd.refreshProcesses)
    else if s = "ctrl+t" then (m.sortByField "threads", some ModelCmd.refreshProcesses)
    else if s = "ctrl+n" then (m.sortByField "nice", some ModelCmd.refreshProcesses)
    else if s = "ctrl+r" then
      ({ m with filter := ProcessFilter.zero, sort := { Field := "cpu", Order := "desc" } },
       some ModelCmd.refreshProcesses)
    else if s = "ctrl+shift+f" then
      ({ m with filter := { m.filter with SearchTerm := "" } }, some ModelCmd.refreshProcesses)
    else if s = "ctrl+shift+s" then
      ({ m with sort := { Field := "cpu", Order := "desc" } }, some ModelCmd.refreshProcesses)
    else if s = "enter" then
      (m, if 0 < m.processes.length ∧ m.selectedIndex < (m.processes.length : Int) then
        some (ModelCmd.switchToDetails (m.processes.getD m.selectedIndex.toNat ProcessInfo.zero).PID)
      else none)
    else (m, none)
  | Msg.refreshProcesses processes _ =>
    ({ m with processes := processes, refreshing := false,
              selectedIndex := applyRefresh processes m.selectedIndex }, none)
  | Msg.refreshTimer => (m, some ModelCmd.refreshProcesses)
  | _ => (m, none)

/-- DetailsModel from details_model.go. -/
structure DetailsModel where
  processes : List ProcessInfo
  selectedIndex : Int
  width : Int
  height : Int
  refreshing : Bool
deriving DecidableEq, Repr

/-- NewDetailsModel from details_model.go. -/
def NewDetailsModel : DetailsModel :=
  { processes := [], selectedIndex := 0, width := 0, height := 0, refreshing := false }

/-- DetailsModel.Update from details_model.go. -/
def DetailsModel.Update (m : DetailsModel) (msg : Msg) :
    DetailsModel × Option ModelCmd :=
  match msg with
  | Msg.key k =>
    let s := k.String
    if s = "up" ∨ s = "k" then
      (if m.selectedIndex > 0 then { m with selectedIndex := m.selectedIndex - 1 } else m,
       none)
    else if s = "down" ∨ s = "j" then
      (if m.selectedIndex < (m.processes.length : Int) - 1 then
        { m with selectedIndex := m.selectedIndex + 1 } else m, none)
    else if s = "r" then (m, some ModelCmd.refreshProcesses)
    else if s = "ctrl+k" then
      (m, if 0 < m.processes.length ∧ m.selectedIndex < (m.processes.length : Int) then
        some (ModelCmd.killProcess (m.processes.getD m.selectedIndex.toNat ProcessInfo.zero).PID)
      else none)
    else if s = "f" then (m, some ModelCmd.showSearchDialog)
    else if s = "esc" then (m, some ModelCmd.switchToProcesses)
    else (m, none)
  | Msg.refreshProcesses processes _ =>
    ({ m with processes := processes, refreshing := false,
              selectedIndex := applyRefresh processes m.selectedIndex }, none)
  | Msg.refreshTimer => (m, some ModelCmd.refreshProcesses)
  | Msg.killProcess success _ =>
    (if success then
      (if m.selectedIndex < (m.processes.length : Int) - 1 then
        { m with selectedIndex := m.selectedIndex + 1 }
      else if m.selectedIndex > 0 then
        { m with selectedIndex := m.selectedIndex - 1 }
      else m)
    else m, none)
  | _ => (m, none)

/-- ShortcutConfigItem from config.go. -/
structure ShortcutConfigItem where
  Key : String
  Action : String
  Description : String
  Context : String
  Enabled : Bool
deriving DecidableEq, Repr

/-- ShortcutConfig from config.go. The Go maps are modelled as association
lists; map iteration order is modelled as list order. -/
structure ShortcutConfig where
  Shortcuts : List (String × ShortcutConfigItem)
  Presets : List (String × String)
  ActivePreset : String
deriving DecidableEq, Repr

/-- getDefaultShortcuts from config.go (fields: key spec, action,
description, context, enabled). -/
def getDefaultShortcuts : List (String × ShortcutConfigItem) :=
  [("global_quit",
    ShortcutConfigItem.mk "ctrl+q" "quit" "Quit application" "Global" true),
   ("global_help",
    ShortcutConfigItem.mk "ctrl+h" "help" "Show help" "Global" true),
   ("global_refresh",
    ShortcutConfigItem.mk "ctrl+r" "refresh" "Refresh current view" "Global" true),
   ("nav_processes",
    ShortcutConfigItem.mk "ctrl+p" "view_processes" "Switch to Processes view" "Global" true),
   ("nav_details",
    ShortcutConfigItem.mk "ctrl+d" "view_details" "Switch to Details view" "Global" true),
   ("nav_stats",
    ShortcutConfigItem.mk "ctrl+t" "view_stats" "Switch to Statistics view" "Global" true),
   ("nav_settings",
    ShortcutConfigItem.mk "ctrl+," "view_settings" "Switch to Settings view" "Global" true),
   ("process_kill",
    ShortcutConfigItem.mk "ctrl+k" "kill_process" "Kill selected process" "Processes" true),
   ("process_export",
    ShortcutConfigItem.mk "ctrl+e" "export" "Export process data" "Processes" true),
   ("filter_search",
    ShortcutConfigItem.mk "ctrl+f" "search" "Open search dialog" "Processes" true),
   ("sort_cpu",
    ShortcutConfigItem.mk "ctrl+o" "sort_cpu" "Sort by CPU usage" "Processes" true),
   ("sort_memory",
    ShortcutConfigItem.mk "ctrl+m" "sort_memory" "Sort by memory usage" "Processes" true)]

/-- parseContext from config.go. -/
def parseContext (contextStr : String) : Context :=
  if contextStr = "Global" then ContextGlobal
  else if contextStr = "Processes" then ContextProcesses
  else if contextStr = "Details" then ContextDetails
  else if contextStr = "Statistics" then ContextStats
  else if contextStr = "Settings" then ContextSettings
  else if contextStr = "Help" then ContextHelp
  else if contextStr = "Filter" then ContextFilter
  else if contextStr = "Search" then ContextSearch
  else ContextGlobal

/-- getHandlerForAction from config.go: the placeholder handler produces a
command printing the action name. -/
def getHandlerForAction (action : String) : Cmd := "Action: " ++ action

/-- ApplyConfig from config.go: reset the registry, then register a shortcut
for every config item. -/
def ShortcutManager.ApplyConfig (m : ShortcutManager) (config : ShortcutConfig) :
    ShortcutManager :=
  config.Shortcuts.foldl
    (fun acc item =>
      acc.RegisterShortcut
        { Key := ParseKey item.2.Key, Action := item.2.Action,
          Description := item.2.Description, Context := parseContext item.2.Context,
          Enabled := item.2.Enabled, Handler := getHandlerForAction item.2.Action })
    { m with registry := NewShortcutRegistry }

/-- LoadConfig from config.go, at the I/O boundary: the outcome of reading
and json.Unmarshal-ing an existing config file is the parameter; a parse
failure is wrapped into an error return. -/
def LoadConfig (parseResult : Except String ShortcutConfig) :
    Except String ShortcutConfig :=
  match parseResult with
  | Except.ok config => Except.ok config
  | Except.error e => Except.error ("failed to parse config file: " ++ e)

/-- The globalShortcuts literal inside registerDefaultShortcuts
(registry.go). -/
def defaultGlobalShortcuts : List Shortcut :=
  [{ Key := ParseKey "ctrl+q", Action := "quit", Description := "Quit application",
     Context := ContextGlobal, Handler := "tea.Quit", Enabled := true },
   { Key := ParseKey "q", Action := "quit", Description := "Quit application",
     Context := ContextGlobal, Handler := "tea.Quit", Enabled := true },
   { Key := ParseKey "ctrl+h", Action := "help", Description := "Show help",
     Context := ContextGlobal, Handler := "Help requested", Enabled := true },
   { Key := ParseKey "f1", Action := "help", Description := "Show help",
     Context := ContextGlobal, Handler := "Help requested", Enabled := true },
   { Key := ParseKey "esc", Action := "cancel", Description := "Cancel current operation",
     Context := ContextGlobal, Handler := "Operation cancelled", Enabled := true },
   { Key := ParseKey "ctrl+r", Action := "refresh", Description := "Refresh current view",
     Context := ContextGlobal, Handler := "Refreshing...", Enabled := true }]

/-- The navShortcuts literal inside registerDefaultShortcuts (registry.go). -/
def defaultNavShortcuts : List Shortcut :=
  [{ Key := ParseKey "ctrl+p", Action := "view_processes",
     Description := "Switch to Processes view", Context := ContextGlobal,
     Handler := "Switching to Processes view", Enabled := true },
   { Key := ParseKey "ctrl+d", Action := "view_details",
     Description := "Switch to Details view", Context := ContextGlobal,
     Handler := "Switching to Details view", Enabled := true },
   { Key := ParseKey "ctrl+t", Action := "view_stats",
     Description := "Switch to Statistics view", Context := ContextGlobal,
     Handler := "Switching to Statistics view", Enabled := true },
   { Key := ParseKey "ctrl+,", Action := "view_settings",
     Description := "Switch to Settings view", Context := ContextGlobal,
     Handler := "Switching to Settings view", Enabled := true }]

/-- The processShortcuts literal inside registerDefaultShortcuts
(registry.go). -/
def defaultProcessShortcuts : List Shortcut :=
  [{ Key := ParseKey "ctrl+k", Action := "kill_process",
     Description := "Kill selected process", Context := ContextProcesses,
     Handler := "Killing process...", Enabled := true },
   { Key := ParseKey "ctrl+shift+k", Action := "force_kill_process",
     Description := "Force kill selected process", Context := ContextProcesses,
     Handler := "Force killing process...", Enabled := true },
   { Key := ParseKey "ctrl+e", Action := "export",
     Description := "Export process data", Context := ContextProcesses,
     Handler := "Exporting data...", Enabled := true },
   { Key := ParseKey "ctrl+b", Action := "backup",
     Description := "Create backup", Context := ContextProcesses,
     Handler := "Creating backup...", Enabled := true }]

/-- The filterShortcuts literal inside registerDefaultShortcuts
(registry.go). -/
def defaultFilterShortcuts : List Shortcut :=
  [{ Key := ParseKey "ctrl+f", Action := "search",
     Description := "Open search dialog", Context := ContextProcesses,
     Handler := "Opening search...", Enabled := true },
   { Key := ParseKey "ctrl+shift+f", Action := "advanced_filter",
     Description := "Open advanced filter dialog", Context := ContextProcesses,
     Handler := "Opening advanced filter...", Enabled := true },
   { Key := ParseKey "ctrl+l", Action := "clear_filters",
     Description := "Clear all filters", Context := ContextProcesses,
     Handler := "Clearing filters...", Enabled := true }]

/-- The sortShortcuts literal inside registerDefaultShortcuts (registry.go). -/
def defaultSortShortcuts : List Shortcut :=
  [{ Key := ParseKey "ctrl+o", Action := "sort_cpu",
     Description := "Sort by CPU usage", Context := ContextProcesses,
     Handler := "Sorting by CPU...", Enabled := true },
   { Key := ParseKey "ctrl+m", Action := "sort_memory",
     Description := "Sort by memory usage", Context := ContextProcesses,
     Handler := "Sorting by memory...", Enabled := true },
   { Key := ParseKey "ctrl+n", Action := "sort_name",
     Description := "Sort by name", Context := ContextProcesses,
     Handler := "Sorting by name...", Enabled := true },
   { Key := ParseKey "ctrl+s", Action := "sort_status",
     Description := "Sort by status", Context := ContextProcesses,
     Handler := "Sorting by status...", Enabled := true }]

/-- registerDefaultShortcuts from registry.go. -/
def ShortcutManager.registerDefaultShortcuts (m : ShortcutManager) : ShortcutManager :=
  ((((m.RegisterShortcuts defaultGlobalShortcuts).RegisterShortcuts
      defaultNavShortcuts).RegisterShortcuts
      defaultProcessShortcuts).RegisterShortcuts
      defaultFilterShortcuts).RegisterShortcuts
      defaultSortShortcuts

/-- NewShortcutManager from registry.go: empty registry, Global context,
defaults registered. -/
def NewShortcutManager : ShortcutManager :=
  ShortcutManager.registerDefaultShortcuts
    { registry := NewShortcutRegistry, context := ContextGlobal }

/-- ShortcutSystem from the shortcut-system source (part_002). -/
structure ShortcutSystem where
  manager : ShortcutManager
  config : ShortcutConfig
  configPath : String

/-- The fallback configuration built inside NewShortcutSystem when
LoadConfig fails. -/
def fallbackConfig : ShortcutConfig :=
  { Shortcuts := getDefaultShortcuts, Presets := [], ActivePreset := "default" }

/-- NewShortcutSystem from part_002, at the I/O boundary: the outcome of
LoadConfig is the parameter. On error the compiled-in default configuration
is used; the chosen configuration is then applied to the manager. -/
def NewShortcutSystem (loadResult : Except String ShortcutConfig) : ShortcutSystem :=
  let manager := NewShortcutManager
  let config := match loadResult with
    | Except.ok c => c
    | Except.error _ => fallbackConfig
  { manager := manager.ApplyConfig config, config := config,
    configPath := "~/.tappmanager/shortcuts.json" }

/-- A sequence of register calls starting from a registry. -/
def ShortcutRegistry.registerAll (r : ShortcutRegistry) (ops : List Shortcut) :
    ShortcutRegistry :=
  ops.foldl ShortcutRegistry.RegisterShortcut r

/-- A key has an enabled binding in a context: some stored shortcut of that
context carries the key and is enabled. -/
def hasEnabledBinding (r : ShortcutRegistry) (key : ShortcutKey) (c : Context) : Prop :=
  ∃ s ∈ r.shortcuts c, s.Key = key ∧ s.Enabled = true

instance (r : ShortcutRegistry) (key : ShortcutKey) (c : Context) :
    Decidable (hasEnabledBinding r key c) :=
  inferInstanceAs (Decidable (∃ s ∈ r.shortcuts c, s.Key = key ∧ s.Enabled = true))

/-- The spec string corresponding to a raw key event: the set modifier
tokens followed by the textual key identifier, joined with +. -/
def eventSpecString (msg : KeyMsg) : String :=
  (if msg.ctrl then "ctrl+" else "") ++ (if msg.alt then "alt+" else "") ++
    (if msg.shift then "shift+" else "") ++ msg.str

/-- The modifier token list of a raw key event, per the section-4.1 rule. -/
def eventModTokens (msg : KeyMsg) : List String :=
  (if msg.ctrl then ["ctrl"] else []) ++ (if msg.alt then ["alt"] else []) ++
    (if msg.shift then ["shift"] else [])

/-- Demo manager for resolution claims: the default shortcut set with the
Processes context active. -/
def c1DemoMgr : ShortcutManager := NewShortcutManager.SetContext ContextProcesses

/-- Demo model for the refresh claim: a stale selection index. -/
def c4DemoModel : ProcessesModel := { NewProcessesModel with selectedIndex := 5 }

/-- Demo process records for kill-result claims. -/
def c5Proc1 : ProcessInfo := { ProcessInfo.zero with PID := 1 }

/-- Second demo process record for kill-result claims. -/
def c5Proc2 : ProcessInfo := { ProcessInfo.zero with PID := 2 }

/-- Processes view with two processes and the first selected. -/
def c5ListModel : ProcessesModel :=
  { NewProcessesModel with processes := [c5Proc1, c5Proc2], selectedIndex := 0 }

/-- Details view with two processes and the last selected. -/
def c5DetailsModel : DetailsModel :=
  { NewDetailsModel with processes := [c5Proc1, c5Proc2], selectedIndex := 1 }

/-- Demo shortcuts for conflict claims: same key, two different contexts. -/
def c7ShortcutA : Shortcut :=
  { Key := ParseKey "ctrl+k", Action := "kill_process", Description := "Kill selected process",
    Context := ContextProcesses, Handler := "Killing process...", Enabled := true }

/-- Second conflict demo shortcut, same key as the first, different context. -/
def c7ShortcutB : Shortcut :=
  { Key := ParseKey "ctrl+k", Action := "kill_from_details", Description := "Kill from details",
    Context := ContextDetails, Handler := "Killing from details...", Enabled := true }

/-- Demo manager for the disable claim: a single ctrl+k binding. -/
def c8DemoMgr : ShortcutManager :=
  ShortcutManager.RegisterShortcut
    { registry := NewShortcutRegistry, context := ContextProcesses } c7ShortcutA

/-- Demo shortcuts for the sort frame-effect claim: two enabled shortcuts
with the same key in one context. -/
def c10ShortcutA : Shortcut :=
  { Key := ParseKey "x", Action := "first_registered", Description := "",
    Context := ContextProcesses, Handler := "cmd_first", Enabled := true }

/-- Second frame-effect demo shortcut: same key, registered after the first. -/
def c10ShortcutB : Shortcut :=
  { Key := ParseKey "x", Action := "second_registered", Description := "",
    Context := ContextProcesses, Handler := "cmd_second", Enabled := true }

/-- Manager holding the two same-key demo shortcuts in registration order. -/
def c10DemoMgr : ShortcutManager :=
  { registry := NewShortcutRegistry.registerAll [c10ShortcutA, c10ShortcutB],
    context := ContextProcesses }

/-- The post-state of GetShortcutsForContext on the demo manager when the
unstable sort returns the two equal-keyed shortcuts swapped. -/
def c10AfterMgr : ShortcutManager :=
  { c10DemoMgr with registry := { c10DemoMgr.registry with shortcuts := (fun c =>
      if c = ContextProcesses then [c10ShortcutB, c10ShortcutA]
      else c10DemoMgr.registry.shortcuts c) } }

lemma findShortcut_cons (key : ShortcutKey) (s : Shortcut) (rest : List Shortcut) :
    findShortcut key (s :: rest) =
      if s.Key = key ∧ s.Enabled = true then some s else findShortcut key rest := rfl

lemma findShortcut_eq_none_iff (key : ShortcutKey) (l : List Shortcut) :
    findShortcut key l = none ↔ ∀ s ∈ l, ¬(s.Key = key ∧ s.Enabled = true) := by
  induction l with
  | nil => simp [findShortcut]
  | cons s rest ih =>
    rw [findShortcut_cons]
    by_cases h : s.Key = key ∧ s.Enabled = true
    · rw [if_pos h]
      constructor
      · intro hc; simp at hc
      · intro hall; exact absurd h (hall s (List.mem_cons_self s rest))
    · rw [if_neg h, ih]
      constructor
      · intro hall t ht
        rcases List.mem_cons.mp ht with heq | hmem
        · rw [heq]; exact h
        · exact hall t hmem
      · intro hall t ht; exact hall t (List.mem_cons_of_mem s ht)

lemma findShortcut_eq_some (key : ShortcutKey) (l : List Shortcut) (s : Shortcut)
    (h : findShortcut key l = some s) :
    s.Key = key ∧ s.Enabled = true ∧ ∃ pre post, l = pre ++ s :: post ∧
      ∀ t ∈ pre, ¬(t.Key = key ∧ t.Enabled = true) := by
  induction l with
  | nil => simp [findShortcut] at h
  | cons a rest ih =>
    rw [findShortcut_cons] at h
    by_cases ha : a.Key = key ∧ a.Enabled = true
    · rw [if_pos ha] at h
      obtain rfl : a = s := Option.some.inj h
      exact ⟨ha.1, ha.2, [], rest, rfl, by simp⟩
    · rw [if_neg ha] at h
      obtain ⟨h1, h2, pre, post, heq, hpre⟩ := ih h
      refine ⟨h1, h2, a :: pre, post, by rw [heq]; rfl, ?_⟩
      intro t ht
      rcases List.mem_cons.mp ht with heq2 | hmem
      · rw [heq2]; exact ha
      · exact hpre t hmem

lemma findShortcut_isSome (key : ShortcutKey) (l : List Shortcut)
    (h : ∃ s ∈ l, s.Key = key ∧ s.Enabled = true) :
    ∃ s, findShortcut key l = some s := by
  cases hf : findShortcut key l with
  | none =>
    rw [findShortcut_eq_none_iff] at hf
    obtain ⟨s, hs, hp⟩ := h
    exact absurd hp (hf s hs)
  | some s => exact ⟨s, rfl⟩

lemma findShortcut_setEnabledFirst_false (key : ShortcutKey) (l : List Shortcut)
    (h : l.countP (fun s => s.Key == key) = 1) :
    findShortcut key (setEnabledFirst key false l) = none := by
  induction l with
  | nil => rfl
  | cons s rest ih =>
    by_cases hk : s.Key = key
    · simp only [setEnabledFirst, if_pos hk]
      rw [findShortcut_cons, if_neg (by simp)]
      rw [findShortcut_eq_none_iff]
      intro t ht hp
      have hc : rest.countP (fun s => s.Key == key) = 0 := by
        rw [List.countP_cons] at h
        simp only [hk, beq_self_eq_true, if_pos] at h
        omega
      rw [List.countP_eq_zero] at hc
      exact hc t ht (by simp [hp.1])
    · simp only [setEnabledFirst, if_neg hk]
      rw [findShortcut_cons, if_neg (fun hp => hk hp.1)]
      apply ih
      rw [List.countP_cons] at h
      simpa [hk] using h

lemma parseFlags_foldl (l : List String) (acc : Bool × Bool × Bool) :
    l.foldl parseFlagsStep acc =
      (acc.1 || l.any fun t => goToLower t == "ctrl",
       acc.2.1 || l.any fun t => goToLower t == "alt",
       acc.2.2 || l.any fun t => goToLower t == "shift") := by
  induction l generalizing acc with
  | nil => simp
  | cons t rest ih =>
    rw [List.foldl_cons, ih]
    simp only [List.any_cons]
    by_cases h1 : goToLower t = "ctrl"
    · simp [parseFlagsStep, h1, beq_iff_eq]
    · by_cases h2 : goToLower t = "alt"
      · simp [parseFlagsStep, h1, h2, beq_iff_eq]
      · by_cases h3 : goToLower t = "shift"
        · simp [parseFlagsStep, h1, h2, h3, beq_iff_eq]
        · have e1 : (goToLower t == "ctrl") = false := beq_eq_false_iff_ne.mpr h1
          have e2 : (goToLower t == "alt") = false := beq_eq_false_iff_ne.mpr h2
          have e3 : (goToLower t == "shift") = false := beq_eq_false_iff_ne.mpr h3
          simp [parseFlagsStep, h1, h2, h3, e1, e2, e3]

lemma parseFlags_eq_any (l : List String) :
    parseFlags l = (l.any fun t => goToLower t == "ctrl",
                    l.any fun t => goToLower t == "alt",
                    l.any fun t => goToLower t == "shift") := by
  rw [parseFlags, parseFlags_foldl]
  simp

lemma any_congr_perm {α : Type} (f : α → Bool) {l1 l2 : List α} (h : l1.Perm l2) :
    l1.any f = l2.any f := by
  cases hb : l2.any f with
  | false =>
    rw [List.any_eq_false] at hb ⊢
    intro x hx
    exact hb x (h.mem_iff.mp hx)
  | true =>
    rw [List.any_eq_true] at hb ⊢
    obtain ⟨x, hx, hfx⟩ := hb
    exact ⟨x, h.mem_iff.mpr hx, hfx⟩

lemma splitOnChar_ne_nil (sep : Char) (l : List Char) : splitOnChar sep l ≠ [] := by
  induction l with
  | nil => simp [splitOnChar]
  | cons c cs ih =>
    simp only [splitOnChar]
    cases h : splitOnChar sep cs with
    | nil => simp
    | cons r rs => by_cases hc : c = sep <;> simp [hc]

lemma splitOnChar_no_sep (sep : Char) (l : List Char) (h : ∀ c ∈ l, c ≠ sep) :
    splitOnChar sep l = [l] := by
  induction l with
  | nil => rfl
  | cons c cs ih =>
    have hc : c ≠ sep := h c (List.mem_cons_self c cs)
    have ih2 := ih fun x hx => h x (List.mem_cons_of_mem c hx)
    simp [splitOnChar, ih2, hc]

lemma splitOnChar_sep_cons (sep : Char) (t rest : List Char) (h : ∀ c ∈ t, c ≠ sep) :
    splitOnChar sep (t ++ sep :: rest) = t :: splitOnChar sep rest := by
  induction t with
  | nil =>
    simp only [List.nil_append, splitOnChar]
    cases hs : splitOnChar sep rest with
    | nil => exact absurd hs (splitOnChar_ne_nil sep rest)
    | cons r rs => simp
  | cons c cs ih =>
    have hc : c ≠ sep := h c (List.mem_cons_self c cs)
    have ih2 := ih fun x hx => h x (List.mem_cons_of_mem c hx)
    simp [splitOnChar, ih2, hc]

lemma registerAll_conflicts (ops : List Shortcut) (r : ShortcutRegistry) (k : ShortcutKey) :
    (r.registerAll ops).conflicts k = r.conflicts k ++ ops.filter (fun s => s.Key == k) := by
  induction ops generalizing r with
  | nil => simp [ShortcutRegistry.registerAll]
  | cons s rest ih =>
    have hstep : r.registerAll (s :: rest) = (r.RegisterShortcut s).registerAll rest := rfl
    rw [hstep, ih]
    by_cases hk : k = s.Key
    · simp [ShortcutRegistry.RegisterShortcut, hk, List.filter_cons]
    · have hbeq : (s.Key == k) = false := by
        simp [beq_eq_false_iff_ne]
        exact fun he => hk he.symm
      simp [ShortcutRegistry.RegisterShortcut, hk, List.filter_cons, hbeq]

lemma ParseKey_eq (keyStr : String) :
    ParseKey keyStr =
      if (splitPlus keyStr).length = 1 then
        { Key := (splitPlus keyStr).headI, Modifier := ModNone }
      else
        { Key := (splitPlus keyStr).getLastI,
          Modifier := modifierOfFlags
            ((splitPlus keyStr).dropLast.any fun t => goToLower t == "ctrl")
            ((splitPlus keyStr).dropLast.any fun t => goToLower t == "alt")
            ((splitPlus keyStr).dropLast.any fun t => goToLower t == "shift") } := by
  simp only [ParseKey, parseFlags_eq_any]

lemma splitPlus_ne_nil (s : String) : splitPlus s ≠ [] := by
  unfold splitPlus
  intro h
  exact splitOnChar_ne_nil '+' s.data (List.map_eq_nil_iff.mp h)

lemma splitPlus_no_plus (s : String) (h : ∀ ch ∈ s.data, ch ≠ '+') :
    splitPlus s = [s] := by
  unfold splitPlus
  rw [splitOnChar_no_sep '+' s.data h]
  rfl

lemma splitPlus_modTokenCons (tok rest : String) (htok : ∀ ch ∈ tok.data, ch ≠ '+') :
    splitPlus (tok ++ "+" ++ rest) = tok :: splitPlus rest := by
  unfold splitPlus
  have hd : (tok ++ "+" ++ rest).data = tok.data ++ '+' :: rest.data := by
    rw [String.data_append, String.data_append]
    simp
  rw [hd, splitOnChar_sep_cons '+' tok.data rest.data htok]
  rfl

lemma GetShortcut_eq_none_of_not_has (r : ShortcutRegistry) (k : ShortcutKey)
    (c : Context) (hn : ¬ hasEnabledBinding r k c) : r.GetShortcut k c = none := by
  cases hf : findShortcut k (r.shortcuts c) with
  | none => exact hf
  | some s =>
    obtain ⟨h1, h2, pre, post, heq, _⟩ := findShortcut_eq_some k (r.shortcuts c) s hf
    refine absurd ⟨s, ?_, h1, h2⟩ hn
    rw [heq]
    exact List.mem_append_right pre (List.mem_cons_self s post)

lemma GetShortcut_isSome_of_has (r : ShortcutRegistry) (k : ShortcutKey)
    (c : Context) (h : hasEnabledBinding r k c) : ∃ s, r.GetShortcut k c = some s :=
  findShortcut_isSome k (r.shortcuts c) h

lemma applyRefresh_bounds (processes : List ProcessInfo) (si : Int) :
    (processes ≠ [] →
      0 ≤ applyRefresh processes si ∧ applyRefresh processes si < (processes.length : Int)) ∧
    (processes = [] → applyRefresh processes si = 0) := by
  constructor
  · intro hne
    have h0 : 0 < processes.length := List.length_pos.mpr hne
    simp only [applyRefresh]
    split_ifs <;> constructor <;> omega
  · intro h
    subst h
    simp only [applyRefresh, List.length_nil, Nat.cast_zero]
    split_ifs <;> omega

/-- C1: Shortcut resolution is two-tier. If the key derived from the event
has an enabled binding in the current context, HandleKey returns the command
of the binding GetShortcut selects there, regardless of any same-key Global
binding (shadowing); otherwise, for a non-Global current context with an
enabled Global binding, HandleKey returns the Global binding command;
otherwise HandleKey returns no command. -/
theorem C1_two_tier_resolution (m : ShortcutManager) (msg : KeyMsg) :
    (hasEnabledBinding m.registry (derivedKey msg) m.context →
      ∃ s, m.registry.GetShortcut (derivedKey msg) m.context = some s ∧
        s ∈ m.registry.shortcuts m.context ∧ s.Key = derivedKey msg ∧
        s.Enabled = true ∧ m.HandleKey msg = some s.Handler) ∧
    (¬ hasEnabledBinding m.registry (derivedKey msg) m.context →
      m.context ≠ ContextGlobal →
      hasEnabledBinding m.registry (derivedKey msg) ContextGlobal →
      ∃ s, m.registry.GetShortcut (derivedKey msg) ContextGlobal = some s ∧
        s.Key = derivedKey msg ∧ s.Enabled = true ∧ m.HandleKey msg = some s.Handler) ∧
    (¬ hasEnabledBinding m.registry (derivedKey msg) m.context →
      ¬ hasEnabledBinding m.registry (derivedKey msg) ContextGlobal →
      m.HandleKey msg = none) := by
  refine ⟨?_, ?_, ?_⟩
  · intro h
    obtain ⟨s, hf⟩ := GetShortcut_isSome_of_has m.registry (derivedKey msg) m.context h
    obtain ⟨hk, he, pre, post, heq, _⟩ :=
      findShortcut_eq_some (derivedKey msg) (m.registry.shortcuts m.context) s hf
    refine ⟨s, hf, ?_, hk, he, ?_⟩
    · rw [heq]
      exact List.mem_append_right pre (List.mem_cons_self s post)
    · simp [ShortcutManager.HandleKey, hf, he]
  · intro hn hc hg
    obtain ⟨s, hf⟩ := GetShortcut_isSome_of_has m.registry (derivedKey msg) ContextGlobal hg
    obtain ⟨hk, he, _, _, _, _⟩ :=
      findShortcut_eq_some (derivedKey msg) (m.registry.shortcuts ContextGlobal) s hf
    have h0 := GetShortcut_eq_none_of_not_has m.registry (derivedKey msg) m.context hn
    refine ⟨s, hf, hk, he, ?_⟩
    simp [ShortcutManager.HandleKey, h0, handleKeyGlobalFallback, hc, hf, he]
  · intro hn hng
    have h0 := GetShortcut_eq_none_of_not_has m.registry (derivedKey msg) m.context hn
    have h0g := GetShortcut_eq_none_of_not_has m.registry (derivedKey msg) ContextGlobal hng
    simp [ShortcutManager.HandleKey, h0, handleKeyGlobalFallback, h0g]

/-- C1 witness: with the default shortcut set and the Processes context
active, an unbound ctrl+z event resolves to no command, while a ctrl+k event
resolves to the enabled Processes binding command. -/
theorem C1_witness :
    c1DemoMgr.HandleKey { str := "z", ctrl := true, alt := false, shift := false } = none ∧
    ∃ s : Shortcut,
      c1DemoMgr.HandleKey { str := "k", ctrl := true, alt := false, shift := false } =
        some s.Handler ∧ s.Enabled = true := by
  constructor
  · exact (C1_two_tier_resolution c1DemoMgr
      { str := "z", ctrl := true, alt := false, shift := false }).2.2
      (by decide) (by decide)
  · obtain ⟨s, _, _, _, hen, hhk⟩ := (C1_two_tier_resolution c1DemoMgr
      { str := "k", ctrl := true, alt := false, shift := false }).1 (by decide)
    exact ⟨s, hhk, hen⟩

/-- C8: GetShortcut is a linear scan returning the first enabled match (so a
returned shortcut is always enabled and every earlier entry of the stored
list fails the enabled-match test), it returns none exactly when no enabled
match is stored, and after DisableShortcut on the only key-matching shortcut
of a context, GetShortcut returns none for that key and context. -/
theorem C8_lookup_skips_disabled (r : ShortcutRegistry) (key : ShortcutKey) (c : Context) :
    (∀ s, r.GetShortcut key c = some s →
       s.Key = key ∧ s.Enabled = true ∧
       ∃ pre post, r.shortcuts c = pre ++ s :: post ∧
         ∀ t ∈ pre, ¬(t.Key = key ∧ t.Enabled = true)) ∧
    (r.GetShortcut key c = none ↔ ∀ s ∈ r.shortcuts c, ¬(s.Key = key ∧ s.Enabled = true)) ∧
    (∀ m : ShortcutManager,
       (m.registry.shortcuts c).countP (fun s => s.Key == key) = 1 →
       (m.DisableShortcut key c).registry.GetShortcut key c = none) := by
  refine ⟨?_, ?_, ?_⟩
  · intro s h
    exact findShortcut_eq_some key (r.shortcuts c) s h
  · exact findShortcut_eq_none_iff key (r.shortcuts c)
  · intro m hcount
    show findShortcut key ((m.DisableShortcut key c).registry.shortcuts c) = none
    simp only [ShortcutManager.DisableShortcut, if_pos rfl]
    exact findShortcut_setEnabledFirst_false key (m.registry.shortcuts c) hcount

/-- C8 witness: disabling the single ctrl+k binding of the Processes context
makes its lookup return none. -/
theorem C8_witness :
    (c8DemoMgr.DisableShortcut (ParseKey "ctrl+k") ContextProcesses).registry.GetShortcut
      (ParseKey "ctrl+k") ContextProcesses = none :=
  (C8_lookup_skips_disabled c8DemoMgr.registry (ParseKey "ctrl+k")
    ContextProcesses).2.2 c8DemoMgr (by decide)

/-- C7: Starting from the empty registry, the conflict bucket of a key after
any sequence of register calls is exactly the sequence of registered
shortcuts carrying that key, regardless of their contexts; hence registering
the same key twice (in the same context or in two different ones) makes that
bucket reach size at least 2, a same-key pair always grows one shared bucket
by exactly 2, and the manager conflicts query returns exactly the buckets
with more than one entry. -/
theorem C7_conflict_buckets :
    (∀ (ops : List Shortcut) (k : ShortcutKey),
       (NewShortcutRegistry.registerAll ops).conflicts k = ops.filter (fun s => s.Key == k)) ∧
    (∀ (ops : List Shortcut) (k : ShortcutKey),
       2 ≤ ops.countP (fun s => s.Key == k) →
       2 ≤ ((NewShortcutRegistry.registerAll ops).conflicts k).length) ∧
    (∀ (s1 s2 : Shortcut) (r : ShortcutRegistry), s1.Key = s2.Key →
       ((r.registerAll [s1, s2]).conflicts s1.Key).length = (r.conflicts s1.Key).length + 2) ∧
    (∀ (m : ShortcutManager) (k : ShortcutKey),
       (1 < (m.registry.conflicts k).length → m.GetConflicts k = m.registry.conflicts k) ∧
       ((m.registry.conflicts k).length ≤ 1 → m.GetConflicts k = [])) := by
  refine ⟨?_, ?_, ?_, ?_⟩
  · intro ops k
    rw [registerAll_conflicts]
    rfl
  · intro ops k h
    rw [registerAll_conflicts]
    rw [List.countP_eq_length_filter] at h
    simpa [NewShortcutRegistry] using h
  · intro s1 s2 r h
    have e1 : (s1.Key == s1.Key) = true := beq_self_eq_true s1.Key
    have e2 : (s2.Key == s1.Key) = true := by rw [h]; exact beq_self_eq_true s2.Key
    rw [registerAll_conflicts]
    simp [List.filter_cons, e1, e2]
  · intro m k
    constructor
    · intro h
      simp [ShortcutManager.GetConflicts, h]
    · intro h
      simp [ShortcutManager.GetConflicts, Nat.not_lt.mpr h]

/-- C7 witness: the same ctrl+k key registered in the Processes context and
then in the Details context lands in one bucket of size 2. -/
theorem C7_witness :
    2 ≤ ((NewShortcutRegistry.registerAll [c7ShortcutA, c7ShortcutB]).conflicts
      (ParseKey "ctrl+k")).length :=
  C7_conflict_buckets.2.1 [c7ShortcutA, c7ShortcutB] (ParseKey "ctrl+k") (by decide)

/-- C4: On a refresh-result event the processes view takes the event list as
its snapshot, clears the refreshing flag, and clamps the selection index:
into bounds for a non-empty snapshot, to 0 for an empty one. -/
theorem C4_refresh_clamps_selection (m : ProcessesModel) (processes : List ProcessInfo)
    (err : Option String) :
    ((m.Update (Msg.refreshProcesses processes err)).1.processes = processes) ∧
    ((m.Update (Msg.refreshProcesses processes err)).1.refreshing = false) ∧
    (processes ≠ [] →
      0 ≤ (m.Update (Msg.refreshProcesses processes err)).1.selectedIndex ∧
      (m.Update (Msg.refreshProcesses processes err)).1.selectedIndex <
        (processes.length : Int)) ∧
    (processes = [] →
      (m.Update (Msg.refreshProcesses processes err)).1.selectedIndex = 0) := by
  refine ⟨rfl, rfl, ?_, ?_⟩
  · intro hne
    exact (applyRefresh_bounds processes m.selectedIndex).1 hne
  · intro h
    exact (applyRefresh_bounds processes m.selectedIndex).2 h

/-- C4 witness: a refresh with a one-element list on a model whose stale
selection index is 5 yields an in-bounds selection. -/
theorem C4_witness :
    0 ≤ (c4DemoModel.Update (Msg.refreshProcesses [ProcessInfo.zero] none)).1.selectedIndex ∧
    (c4DemoModel.Update (Msg.refreshProcesses [ProcessInfo.zero] none)).1.selectedIndex <
      (([ProcessInfo.zero] : List ProcessInfo).length : Int) :=
  (C4_refresh_clamps_selection c4DemoModel [ProcessInfo.zero] none).2.2.1 (by decide)

/-- C5 counterexample: the processes view issues kill commands (ctrl+k) but
ignores kill-result events entirely, so with two processes and the first
selected, a successful kill result leaves the state unchanged instead of
advancing the selection to the next process. -/
theorem C5_counterexample :
    c5ListModel.processes.length = 2 ∧ c5ListModel.selectedIndex = 0 ∧
    (c5ListModel.Update (Msg.key (KeyMsg.mk "ctrl+k" true false false))).2 =
      some (ModelCmd.killProcess 1) ∧
    (c5ListModel.Update (Msg.killProcess true none)).1 = c5ListModel ∧
    (c5ListModel.Update (Msg.killProcess true none)).1.selectedIndex ≠
      c5ListModel.selectedIndex + 1 := by
  exact ⟨rfl, rfl, by decide, rfl, by decide⟩

/-- C5 amended: only the details view reacts to kill-result events; on
success it advances the selection by one when not at the last index, else
retreats by one when positive, else leaves the state unchanged (single
process), so killing the selected last process decrements the selection
exactly when at least two processes are listed; on failure the details state
is unchanged, and the processes view is unchanged on every kill-result
event. -/
theorem C5_amended_kill_result (dm : DetailsModel) (pm : ProcessesModel)
    (success : Bool) (err : Option String) :
    ((dm.Update (Msg.killProcess success err)).1.processes = dm.processes) ∧
    (success = true → dm.selectedIndex < (dm.processes.length : Int) - 1 →
      (dm.Update (Msg.killProcess success err)).1.selectedIndex = dm.selectedIndex + 1) ∧
    (success = true → ¬ dm.selectedIndex < (dm.processes.length : Int) - 1 →
      0 < dm.selectedIndex →
      (dm.Update (Msg.killProcess success err)).1.selectedIndex = dm.selectedIndex - 1) ∧
    (success = true → ¬ dm.selectedIndex < (dm.processes.length : Int) - 1 →
      ¬ 0 < dm.selectedIndex →
      (dm.Update (Msg.killProcess success err)).1 = dm) ∧
    (success = true → dm.selectedIndex = (dm.processes.length : Int) - 1 →
      2 ≤ dm.processes.length →
      (dm.Update (Msg.killProcess success err)).1.selectedIndex = dm.selectedIndex - 1) ∧
    (success = false → (dm.Update (Msg.killProcess success err)).1 = dm) ∧
    (pm.Update (Msg.killProcess success err) = (pm, none)) := by
  refine ⟨?_, ?_, ?_, ?_, ?_, ?_, rfl⟩
  · simp only [DetailsModel.Update]
    split_ifs <;> rfl
  · intro hs h1
    subst hs
    simp [DetailsModel.Update, h1]
  · intro hs h1 h2
    subst hs
    simp [DetailsModel.Update, h1, h2]
  · intro hs h1 h2
    subst hs
    simp [DetailsModel.Update, h1, h2]
  · intro hs hlast hlen
    subst hs
    have h1 : ¬ dm.selectedIndex < (dm.processes.length : Int) - 1 := by omega
    have h2 : 0 < dm.selectedIndex := by omega
    simp [DetailsModel.Update, h1, h2]
  · intro hs
    subst hs
    simp [DetailsModel.Update]

/-- C5 amended witness: in the details view with two processes and the last
selected, a successful kill result decrements the selection to 0. -/
theorem C5_amended_witness :
    (c5DetailsModel.Update (Msg.killProcess true none)).1.selectedIndex = 0 := by
  have h := (C5_amended_kill_result c5DetailsModel NewProcessesModel true
    none).2.2.2.2.1 rfl (by decide) (by decide)
  simpa using h

/-- C6: sortByField on the current sort field keeps the field and flips the
order between ascending and descending; on a different field it switches to
that field with descending order. -/
theorem C6_sort_toggle (m : ProcessesModel) (F : String)
    (horder : m.sort.Order = "asc" ∨ m.sort.Order = "desc") :
    (F = m.sort.Field →
      (m.sortByField F).sort.Field = m.sort.Field ∧
      ((m.sortByField F).sort.Order = if m.sort.Order = "asc" then "desc" else "asc") ∧
      (m.sortByField F).sort.Order ≠ m.sort.Order) ∧
    (F ≠ m.sort.Field →
      (m.sortByField F).sort.Field = F ∧ (m.sortByField F).sort.Order = "desc") := by
  constructor
  · intro hF
    unfold ProcessesModel.sortByField
    rw [if_pos hF.symm]
    by_cases ho : m.sort.Order = "asc"
    · rw [if_pos ho]
      refine ⟨rfl, by rw [if_pos ho], ?_⟩
      rw [ho]
      exact (by decide : ("desc" : String) ≠ "asc")
    · rw [if_neg ho]
      rcases horder with h | h
      · exact absurd h ho
      · refine ⟨rfl, by rw [if_neg ho], ?_⟩
        rw [h]
        exact (by decide : ("asc" : String) ≠ "desc")
  · intro hF
    unfold ProcessesModel.sortByField
    rw [if_neg fun he => hF he.symm]
    exact ⟨rfl, rfl⟩

/-- C6 witness: the fresh processes model sorts by cpu descending; selecting
cpu again flips to ascending, selecting name switches to name descending. -/
theorem C6_witness :
    (NewProcessesModel.sortByField "cpu").sort.Order = "asc" ∧
    (NewProcessesModel.sortByField "name").sort.Field = "name" ∧
    (NewProcessesModel.sortByField "name").sort.Order = "desc" := by
  refine ⟨?_, ?_, ?_⟩
  · have h := (C6_sort_toggle NewProcessesModel "cpu" (Or.inr rfl)).1 rfl
    simpa using h.2.1
  · exact ((C6_sort_toggle NewProcessesModel "name" (Or.inr rfl)).2 (by decide)).1
  · exact ((C6_sort_toggle NewProcessesModel "name" (Or.inr rfl)).2 (by decide)).2

/-- C3: ParseKey takes the last +-token as the base key; with a single token
the modifier is None, otherwise it is the 8-way combination of the three
case-insensitive flags read from the preceding tokens (None when none of
ctrl/alt/shift occurs); the flag combination determines exactly one of the
eight enum values (the map is bijective); and spec strings whose modifier
token lists are permutations of each other with the same last token parse to
the identical ShortcutKey. -/
theorem C3_parse_canonicalization :
    (∀ keyStr : String, (ParseKey keyStr).Key = (splitPlus keyStr).getLastI) ∧
    (∀ keyStr : String, (splitPlus keyStr).length = 1 →
      (ParseKey keyStr).Modifier = ModNone) ∧
    (∀ keyStr : String, 1 < (splitPlus keyStr).length →
      (ParseKey keyStr).Modifier = modifierOfFlags
        ((splitPlus keyStr).dropLast.any fun t => goToLower t == "ctrl")
        ((splitPlus keyStr).dropLast.any fun t => goToLower t == "alt")
        ((splitPlus keyStr).dropLast.any fun t => goToLower t == "shift")) ∧
    (modifierOfFlags false false false = ModNone) ∧
    (Function.Bijective fun p : Bool × Bool × Bool => modifierOfFlags p.1 p.2.1 p.2.2) ∧
    (∀ s1 s2 : String,
      ((splitPlus s1).dropLast).Perm ((splitPlus s2).dropLast) →
      (splitPlus s1).getLastI = (splitPlus s2).getLastI →
      ParseKey s1 = ParseKey s2) := by
  have hkey : ∀ keyStr : String, (ParseKey keyStr).Key = (splitPlus keyStr).getLastI := by
    intro s
    rw [ParseKey_eq]
    by_cases h : (splitPlus s).length = 1
    · rw [if_pos h]
      obtain ⟨a, ha⟩ := List.length_eq_one.mp h
      rw [ha]
      rfl
    · rw [if_neg h]
  refine ⟨hkey, ?_, ?_, rfl, by decide, ?_⟩
  · intro s h
    rw [ParseKey_eq, if_pos h]
  · intro s h
    rw [ParseKey_eq, if_neg (by omega)]
  · intro s1 s2 hperm hlast
    have hn1 : splitPlus s1 ≠ [] := splitPlus_ne_nil s1
    have hn2 : splitPlus s2 ≠ [] := splitPlus_ne_nil s2
    have hp1 : 0 < (splitPlus s1).length := List.length_pos.mpr hn1
    have hp2 : 0 < (splitPlus s2).length := List.length_pos.mpr hn2
    have hdl := hperm.length_eq
    rw [List.length_dropLast, List.length_dropLast] at hdl
    have hlen : (splitPlus s1).length = (splitPlus s2).length := by omega
    rw [ParseKey_eq, ParseKey_eq]
    by_cases h : (splitPlus s1).length = 1
    · rw [if_pos h, if_pos (by omega)]
      obtain ⟨a, ha⟩ := List.length_eq_one.mp h
      obtain ⟨b, hb⟩ := List.length_eq_one.mp (show (splitPlus s2).length = 1 by omega)
      rw [ha, hb] at hlast ⊢
      simp only [List.getLastI] at hlast
      rw [hlast]
    · rw [if_neg h, if_neg (by omega)]
      rw [hlast, any_congr_perm (fun t => goToLower t == "ctrl") hperm,
        any_congr_perm (fun t => goToLower t == "alt") hperm,
        any_congr_perm (fun t => goToLower t == "shift") hperm]

/-- C3 witness: two spec strings differing only in modifier token order
parse to the identical ShortcutKey. -/
theorem C3_witness : ParseKey "ctrl+alt+k" = ParseKey "alt+ctrl+k" :=
  C3_parse_canonicalization.2.2.2.2.2 "ctrl+alt+k" "alt+ctrl+k" (by decide) (by decide)

/-- C2: HandleKey derives and looks up the key whose base is the textual key
identifier of the event and whose modifier combines the three boolean flags
by the same 8-way rule as ParseKey; consequently the derived key equals the
section-4.1 parse of every spec string splitting into the event modifier
tokens followed by the base key, and in particular an event for base key k
with ctrl set resolves the default shortcut registered via ParseKey applied
to ctrl+k. -/
theorem C2_derived_key_matches_parse :
    (∀ msg : KeyMsg, derivedKey msg =
      { Key := msg.String, Modifier := modifierOfFlags msg.ctrl msg.alt msg.shift }) ∧
    (∀ (msg : KeyMsg) (specStr : String),
      splitPlus specStr = eventModTokens msg ++ [msg.str] →
      derivedKey msg = ParseKey specStr) ∧
    (splitPlus "ctrl+k" = eventModTokens (KeyMsg.mk "k" true false false) ++ ["k"]) ∧
    (c1DemoMgr.HandleKey (KeyMsg.mk "k" true false false) = some "Killing process...") := by
  refine ⟨?_, ?_, by decide, by decide⟩
  · intro msg
    rcases msg with ⟨str, c, a, s⟩
    cases c <;> cases a <;> cases s <;> rfl
  · intro msg specStr h
    rcases msg with ⟨str, c, a, s⟩
    rw [ParseKey_eq, h]
    cases c <;> cases a <;> cases s <;> rfl

/-- C2 witness: the key derived from the event with base key k and the ctrl
flag set equals the parse of ctrl+k. -/
theorem C2_witness : derivedKey (KeyMsg.mk "k" true false false) = ParseKey "ctrl+k" :=
  C2_derived_key_matches_parse.2.1 (KeyMsg.mk "k" true false false) "ctrl+k" (by decide)

/-- C9: When loading the persisted shortcut configuration fails (for
example, the file contents do not parse as JSON), LoadConfig returns an
error, and system construction still completes: NewShortcutSystem falls back
to the compiled-in default shortcut set and applies it to the manager. -/
theorem C9_load_failure_falls_back (parseErr : String) :
    (∃ loadErr, LoadConfig (Except.error parseErr) = Except.error loadErr) ∧
    (NewShortcutSystem (LoadConfig (Except.error parseErr))).config = fallbackConfig ∧
    fallbackConfig.Shortcuts = getDefaultShortcuts ∧
    (NewShortcutSystem (LoadConfig (Except.error parseErr))).manager =
      NewShortcutManager.ApplyConfig fallbackConfig :=
  ⟨⟨"failed to parse config file: " ++ parseErr, rfl⟩, rfl, rfl, rfl⟩

lemma c10_pairwise_sorted :
    List.Pairwise (fun x y => ¬ keyStringLess y x) [c10ShortcutB, c10ShortcutA] := by
  refine List.Pairwise.cons ?_ (List.pairwise_singleton _ _)
  intro y hy
  rw [List.mem_singleton] at hy
  subst hy
  unfold keyStringLess
  rw [show c10ShortcutA.Key = c10ShortcutB.Key from rfl]
  exact lt_irrefl _

/-- C10: GetShortcutsForContext sorts, in place, the very list the registry
stores for the context (some permutation ordered by canonical key string,
per the unstable sort.Slice contract): afterwards the registry stores the
returned sorted permutation, other contexts are untouched, and lookups scan
the sorted list; with two enabled same-key shortcuts in one context, a sort
outcome exists after which the first enabled match differs from before. -/
theorem C10_sort_mutates_registry :
    (∀ (m : ShortcutManager) (c : Context) (result : List Shortcut)
       (mAfter : ShortcutManager),
       GetShortcutsForContextRel m c result mAfter →
         mAfter.registry.shortcuts c = result ∧
         (m.registry.shortcuts c).Perm result ∧
         result.Pairwise (fun x y => ¬ keyStringLess y x) ∧
         (∀ c2, c2 ≠ c → mAfter.registry.shortcuts c2 = m.registry.shortcuts c2) ∧
         (∀ key, mAfter.registry.GetShortcut key c = findShortcut key result)) ∧
    (GetShortcutsForContextRel c10DemoMgr ContextProcesses
        [c10ShortcutB, c10ShortcutA] c10AfterMgr ∧
      c10DemoMgr.registry.GetShortcut (ParseKey "x") ContextProcesses = some c10ShortcutA ∧
      c10AfterMgr.registry.GetShortcut (ParseKey "x") ContextProcesses = some c10ShortcutB ∧
      c10ShortcutA ≠ c10ShortcutB) := by
  constructor
  · intro m c result mAfter hrel
    obtain ⟨⟨hperm, hpair⟩, hA⟩ := hrel
    subst hA
    refine ⟨by simp, hperm, hpair, ?_, ?_⟩
    · intro c2 hc2
      simp [hc2]
    · intro key
      show findShortcut key (if c = c then result else m.registry.shortcuts c) = _
      rw [if_pos rfl]
  · exact ⟨⟨⟨by decide, c10_pairwise_sorted⟩, rfl⟩, by decide, by decide, by decide⟩

/-- C10 witness: applying the frame-effect theorem to the two same-key demo
shortcuts shows the registry stores the swapped sorted outcome afterwards. -/
theorem C10_witness :
    c10AfterMgr.registry.shortcuts ContextProcesses = [c10ShortcutB, c10ShortcutA] :=
  ((C10_sort_mutates_registry.1 c10DemoMgr ContextProcesses
    [c10ShortcutB, c10ShortcutA] c10AfterMgr ⟨⟨by decide, c10_pairwise_sorted⟩, rfl⟩)).1
